import Mathlib

/-!
Verification of the meeting-scheduling engine (npt_scheduler.py /
meeting_scheduler_final.py).

Modelling conventions:
* Clock times are minutes since midnight, as `ℤ`.
* Heatmap quantities (Scheduled, Requirement, NPT_Count,
  Revised_Staffing) are modelled over `ℚ`, the exact-arithmetic reading
  of the scripts' numeric accumulation.
* A pandas value that may be NaN/absent is an `Option`.
* Dates and skills are opaque identifiers, modelled as `ℤ`.
-/

namespace Sched

/-- `floor_to_30` of npt_scheduler.py: floor a clock time to the 30-minute
grid (`minute := 0` if below 30 else `30`), i.e. `t - t % 30` in minutes. -/
def floorTo30 (t : ℤ) : ℤ := t - t % 30

/-- One roster row's break/lunch columns; each endpoint may be absent (NaN). -/
structure BreakRow where
  lunch1Start : Option ℤ
  lunch1End : Option ℤ
  break1Start : Option ℤ
  break1End : Option ℤ
  break2Start : Option ℤ
  break2End : Option ℤ
deriving DecidableEq

/-- A break pair participates in a check only when both endpoints are
present (`pd.notna(s_val) and pd.notna(e_val)` in both scripts). -/
def rawPairOf (s e : Option ℤ) : Option (ℤ × ℤ) :=
  match s, e with
  | some sv, some ev => some (sv, ev)
  | _, _ => none

/-- npt_scheduler.py lines 209-218: the candidate builder additionally
repairs an inverted pair (`if edt < sdt: edt = sdt + 30`). -/
def mkExclude (p : ℤ × ℤ) : ℤ × ℤ :=
  (p.1, if p.2 < p.1 then p.1 + 30 else p.2)

/-- The break pairs used by the in-loop overlap rechecks (no reordering
repair): lunch1, break1, break2, keeping only fully specified pairs. -/
def rawPairs (r : BreakRow) : List (ℤ × ℤ) :=
  [rawPairOf r.lunch1Start r.lunch1End,
   rawPairOf r.break1Start r.break1End,
   rawPairOf r.break2Start r.break2End].filterMap id

/-- npt_scheduler.py candidate-builder exclude periods (with the
inverted-pair repair applied). -/
def excludePeriods (r : BreakRow) : List (ℤ × ℤ) :=
  (rawPairs r).map mkExclude

/-- Overlap of the span `[cand, cand+dur)` with a window `[p.1, p.2)`:
`not (cand + dur <= start or cand >= end)`, as written in
npt_scheduler.py lines 282/504 and meeting_scheduler_final.py
`is_time_conflicting`. -/
def spanClash (cand dur : ℤ) (p : ℤ × ℤ) : Bool :=
  !(decide (cand + dur ≤ p.1) || decide (p.2 ≤ cand))

/-- meeting_scheduler_final.py `is_time_conflicting`: the meeting span
conflicts with lunch1/break1/break2 when both window endpoints are
present and the spans overlap. -/
def isTimeConflicting (r : BreakRow) (mt dur : ℤ) : Bool :=
  (rawPairs r).any (spanClash mt dur)

/-- npt_scheduler.py line 230: a candidate start `t` is dropped when
`(t >= es and t < ee) or (t + 30 > es and t < ee)` for some exclude
period. -/
def insideExclude (t : ℤ) (p : ℤ × ℤ) : Bool :=
  (decide (p.1 ≤ t) && decide (t < p.2)) || (decide (p.1 < t + 30) && decide (t < p.2))

/-- The `while t + 30 <= shift_end` loop of npt_scheduler.py lines
222-235, with explicit fuel (the loop advances `t` by 30 each turn, so
any fuel at least the number of grid steps is enough). -/
def candLoop : ℕ → ℤ → ℤ → List (ℤ × ℤ) → List ℤ
  | 0, _, _, _ => []
  | f + 1, t, shiftEnd, ex =>
    if t + 30 ≤ shiftEnd then
      if ex.any (insideExclude t) then candLoop f (t + 30) shiftEnd ex
      else t :: candLoop f (t + 30) shiftEnd ex
    else []

/-- Candidate 30-minute start times for one associate
(npt_scheduler.py lines 220-236): every 30-minute mark from
`floor_to_30(shift_start)` while a minimal 30-minute slot still fits
before `shift_end`, minus the exclude periods. -/
def buildCandidates (shiftStart shiftEnd : ℤ) (ex : List (ℤ × ℤ)) : List ℤ :=
  candLoop ((shiftEnd - floorTo30 shiftStart) / 30 + 1).toNat (floorTo30 shiftStart) shiftEnd ex

/-- meeting_scheduler_final.py `get_30min_intervals`: `while current <
end_time` loop emitting 30-minute steps; `duration_hours` is always the
default 8, so 16 turns of fuel cover the loop exactly. -/
def intervalsLoop : ℕ → ℤ → ℤ → List ℤ
  | 0, _, _ => []
  | f + 1, cur, endT =>
    if cur < endT then cur :: intervalsLoop f (cur + 30) endT else []

/-- meeting_scheduler_final.py `get_30min_intervals(start_time)` with the
default `duration_hours=8`. -/
def get30minIntervals (start : ℤ) : List ℤ :=
  intervalsLoop 16 start (start + 8 * 60)

/-- meeting_scheduler_final.py `_schedule_individual_meeting` line 325:
`available_intervals = intervals[2:]`. -/
def availableIntervalsFinal (start : ℤ) : List ℤ :=
  (get30minIntervals start).drop 2

/-! ## Huddle split counts -/

/-- npt_scheduler.py line 330: `math.floor(n * 0.5)`. -/
def minAllow (n : ℕ) : ℤ := ⌊(n : ℚ) * (1 / 2)⌋

/-- npt_scheduler.py line 331: `math.ceil(n * 0.6)` (0.6 read exactly as
3/5). -/
def maxAllow (n : ℕ) : ℤ := ⌈(n : ℚ) * (3 / 5)⌉

/-- npt_scheduler.py lines 328-332: `first_count = int(round(n * 0.55))`
clamped into `[min_allow, max_allow]` (0.55 read exactly as 11/20;
`round` is the round-to-nearest of exact arithmetic, whose tie behaviour
the clamp makes irrelevant to the stated bounds). -/
def firstCountNpt (n : ℕ) : ℤ :=
  max (minAllow n) (min (maxAllow n) (round ((n : ℚ) * (11 / 20))))

/-- meeting_scheduler_final.py line 182:
`first_slot_count = int(total_associates * random.uniform(0.5, 0.6))` —
truncation of `n * r`, with no clamp; the sampled ratio `r` is a
parameter. -/
def firstSlotCountFinal (n : ℕ) (r : ℚ) : ℤ := ⌊(n : ℚ) * r⌋

/-- Modelled from the spec's words for comparison with the code (spec
4.4 step 1): "Compute `firstCount` as `round(n × r)` for a configurable
ratio `r ∈ [0.5, 0.6]`, clamped to `[floor(0.5n), ceil(0.6n)]`". -/
def firstCountSpec (n : ℕ) (r : ℚ) : ℤ :=
  max (minAllow n) (min (maxAllow n) (round ((n : ℚ) * r)))

/-- meeting_scheduler_final.py `schedule_team_huddles` lines 186-222 for
one (shift-start, site) group: the shuffled associate list is split at
`first_slot_count`; the first part is committed at `shift_start`, the
rest at `shift_start + 30`, each as `(associate, start, duration)` —
with no availability, break-overlap or conflict check of any kind. -/
def scheduleHuddleGroup (shiftStart dur : ℤ) (shuffled : List ℕ) (firstCount : ℕ) :
    List (ℕ × ℤ × ℤ) :=
  (shuffled.take firstCount).map (fun i => (i, shiftStart, dur)) ++
    (shuffled.drop firstCount).map (fun i => (i, shiftStart + 30, dur))

/-! ## Capacity ledger (Schedule_heatmap) -/

/-- One heatmap row's numeric columns: `Scheduled`, `Requirement`,
`NPT_Count`, `Revised_Staffing_heatmap`. -/
structure Cell where
  scheduled : ℚ
  requirement : ℚ
  nptCount : ℚ
  revised : ℚ
deriving DecidableEq

/-- npt_scheduler.py `update_heatmap_for_interval` body (lines 163-164):
`NPT_Count += minutes/30` and
`Revised_Staffing_heatmap = (Scheduled - NPT_Count) - Requirement`. -/
def applyDelta (c : Cell) (d : ℚ) : Cell :=
  { c with nptCount := c.nptCount + d,
           revised := (c.scheduled - (c.nptCount + d)) - c.requirement }

/-- npt_scheduler.py `rollback_heatmap_for_interval` body (lines
173-174): `NPT_Count -= minutes/30` and the same recomputation. -/
def removeDelta (c : Cell) (d : ℚ) : Cell :=
  { c with nptCount := c.nptCount - d,
           revised := (c.scheduled - (c.nptCount - d)) - c.requirement }

/-- The provisional add / threshold check / rollback fragment of
npt_scheduler.py lines 589-594 (the spec's `tryReserve`), at one cell:
apply the delta `minutes/30`, accept iff the recomputed revised staffing
is not below the threshold, otherwise roll the delta back. -/
def tryReserveCell (c : Cell) (minutes : ℤ) (th : ℚ) : Bool × Cell :=
  let c1 := applyDelta c ((minutes : ℚ) / 30)
  if c1.revised < th then (false, removeDelta c1 ((minutes : ℚ) / 30))
  else (true, c1)

/-- A heatmap interval key as the scripts format it: either the
`"HH:MM-HH:MM"` range string or the bare `"HH:MM"` start string. -/
inductive IntervalKey
  | range (s e : ℤ)
  | startOnly (s : ℤ)
deriving DecidableEq

/-- `heatmap_index` key: (Date, Interval, Skill). -/
abbrev HKey := ℤ × IntervalKey × ℤ

/-- The heatmap: rows keyed by `HKey`. -/
abbrev Heatmap := List (HKey × Cell)

/-- Fetch the row for a key. -/
def getCell (hm : Heatmap) (k : HKey) : Option Cell :=
  (hm.find? fun p => decide (p.1 = k)).map (·.2)

/-- npt_scheduler.py lines 563-582 (same logic at lines 365-384): try the
exact `"HH:MM-HH:MM"` key, then the bare start `"HH:MM"` key, then fall
back to scanning `heatmap_index` for any row with the same Date and
Skill; the candidate is skipped only if all three fail. -/
def lookupHeatmapKey (keys : List HKey) (dateObj cand skill : ℤ) : Option HKey :=
  if (dateObj, IntervalKey.range cand (cand + 30), skill) ∈ keys then
    some (dateObj, IntervalKey.range cand (cand + 30), skill)
  else if (dateObj, IntervalKey.startOnly cand, skill) ∈ keys then
    some (dateObj, IntervalKey.startOnly cand, skill)
  else
    keys.find? fun k => decide (k.1 = dateObj) && decide (k.2.2 = skill)

/-- Modelled from the spec's words for comparison with the code (spec
4.2): lookups fall back through "exact interval string → normalized
start-time-only key" and then give up. -/
def lookupSpecOrder (keys : List HKey) (dateObj cand skill : ℤ) : Option HKey :=
  if (dateObj, IntervalKey.range cand (cand + 30), skill) ∈ keys then
    some (dateObj, IntervalKey.range cand (cand + 30), skill)
  else if (dateObj, IntervalKey.startOnly cand, skill) ∈ keys then
    some (dateObj, IntervalKey.startOnly cand, skill)
  else none

/-! ## Meetings, managers and the one-to-one placement loop -/

/-- One Constraint-sheet row (npt_scheduler.py lines 100-109), with
`Meeting_Type` and `Manager_Availability` already stripped/lowercased as
the comparisons in the scheduling loop read them. -/
structure MeetingDef where
  name : String
  meetingType : String
  managerAvail : String
  duration : ℤ
  threshold : ℚ
deriving DecidableEq

/-- One Manager_Roster row as `is_manager_available` reads it: optional
Date, Working flag, shift bounds and break windows. -/
structure MgrRow where
  date : Option ℤ
  working : ℤ
  shiftStart : ℤ
  shiftEnd : ℤ
  breaks : BreakRow
deriving DecidableEq

/-- The per-row acceptance test inside npt_scheduler.py
`is_manager_available` (lines 257-287): the row's date (when present)
must match, Working must be 1, the meeting span must lie inside the
row's shift, and it must not clash with any fully specified break
pair. -/
def mgrRowOk (r : MgrRow) (dateObj cand dur : ℤ) : Bool :=
  (match r.date with | some d => decide (d = dateObj) | none => true) &&
  decide (r.working = 1) &&
  decide (r.shiftStart ≤ cand) && decide (cand + dur ≤ r.shiftEnd) &&
  !((rawPairs r.breaks).any (spanClash cand dur))

/-- npt_scheduler.py `is_manager_available`: true iff some roster row for
that manager name passes `mgrRowOk`. -/
def isManagerAvailable (roster : List (String × MgrRow)) (mname : String)
    (cand dur dateObj : ℤ) : Bool :=
  (roster.filter fun p => decide (p.1 = mname)).any fun p => mgrRowOk p.2 dateObj cand dur

/-- Outcome of the manager-assignment block: a manager is attached, no
manager is attached but the candidate proceeds, or the candidate is
skipped (`continue`). -/
inductive MgrResult
  | pair (m : String)
  | nopair
  | skip
deriving DecidableEq

/-- npt_scheduler.py lines 523-560, the manager-assignment rules for one
candidate. `aaManager` is `aa_to_manager.get(name)` (absent entry =
`none`); `avail m` stands for `is_manager_available(m, cand, dur, date)`.
Group meetings requiring a manager attach the direct manager without any
availability check, and fall back to any available manager when no
direct manager is recorded; one-to-one meetings requiring a manager
attach only an available direct manager and otherwise skip the
candidate; meetings not requiring one take the first available manager
(one-to-one skips the candidate when none is available, a group meeting
proceeds unpaired). -/
def resolveManager (mdef : MeetingDef) (aaManager : Option String)
    (managerList : List String) (avail : String → Bool) : MgrResult :=
  if mdef.meetingType = "group meeting" then
    if mdef.managerAvail = "yes" then
      match aaManager with
      | some d => .pair d
      | none =>
        match managerList.find? avail with
        | some m => .pair m
        | none => .nopair
    else
      match managerList.find? avail with
      | some m => .pair m
      | none => .nopair
  else
    if mdef.managerAvail = "yes" then
      match aaManager with
      | some d => if avail d then .pair d else .skip
      | none => .skip
    else
      match managerList.find? avail with
      | some m => .pair m
      | none => .skip

/-- One Associate_Roster row as the one-to-one loop reads it. -/
structure AssocRow where
  name : String
  date : ℤ
  skill : ℤ
  shiftStart : ℤ
  shiftEnd : ℤ
  breaks : BreakRow
  manager : Option String
deriving DecidableEq

/-- npt_scheduler.py lines 512-514: the duration of an already-scheduled
meeting is looked up by name in the Constraint definitions, defaulting
to 30. -/
def durOf (meetings : List MeetingDef) (mn : String) : ℤ :=
  match meetings.find? fun m => decide (m.name = mn) with
  | some d => d.duration
  | none => 30

/-- npt_scheduler.py lines 509-521: the candidate clashes with an
existing assignment `(name, start)` when the spans
`[cand, cand+dur)` and `[start, start + durOf name)` overlap. -/
def schedClash (meetings : List MeetingDef) (sched : List (String × ℤ))
    (cand dur : ℤ) : Bool :=
  sched.any fun p =>
    !(decide (cand + dur ≤ p.2) || decide (p.2 + durOf meetings p.1 ≤ cand))

/-- npt_scheduler.py lines 562-594: heatmap key lookup with fallbacks,
the `Scheduled - Requirement > threshold` pre-check, then the
provisional add / recheck / rollback. Returns the key the candidate was
validated against when it is accepted. (The rollback restores the cell's
numbers exactly — `reserve_release_nptCount` below — so the heatmap seen
by each candidate is the heatmap passed in.) -/
def heatPhase (row : AssocRow) (mdef : MeetingDef) (hm : Heatmap) (cand : ℤ) :
    Option HKey :=
  match lookupHeatmapKey (hm.map Prod.fst) row.date cand row.skill with
  | none => none
  | some k =>
    match getCell hm k with
    | none => none
    | some c =>
      if c.scheduled - c.requirement ≤ mdef.threshold then none
      else if (applyDelta c ((mdef.duration : ℚ) / 30)).revised < mdef.threshold then none
      else some k

/-- The body of the `for cand in candidates` loop of npt_scheduler.py
lines 491-604 for one candidate: shift-end fit, full-duration break
recheck, conflict check against the associate's committed meetings,
manager assignment, then the heatmap phase. `some (mg, k)` means the
meeting is committed at this candidate with optional manager `mg`,
validated against heatmap key `k`. -/
def tryCandidate (row : AssocRow) (mdef : MeetingDef) (meetings : List MeetingDef)
    (sched : List (String × ℤ)) (roster : List (String × MgrRow))
    (managerList : List String) (hm : Heatmap) (cand : ℤ) :
    Option (Option String × HKey) :=
  if cand + mdef.duration ≤ row.shiftEnd then
    if (rawPairs row.breaks).any (spanClash cand mdef.duration) then none
    else if schedClash meetings sched cand mdef.duration then none
    else
      match resolveManager mdef row.manager managerList
          (fun m => isManagerAvailable roster m cand mdef.duration row.date) with
      | .skip => none
      | .pair m => (heatPhase row mdef hm cand).map fun k => (some m, k)
      | .nopair => (heatPhase row mdef hm cand).map fun k => (none, k)
  else none

/-- First-fit iteration over the candidate list (the enclosing `for cand
in candidates` loop with its final `break`). -/
def placeLoop (row : AssocRow) (mdef : MeetingDef) (meetings : List MeetingDef)
    (sched : List (String × ℤ)) (roster : List (String × MgrRow))
    (managerList : List String) (hm : Heatmap) :
    List ℤ → Option (ℤ × Option String × HKey)
  | [] => none
  | c :: rest =>
    match tryCandidate row mdef meetings sched roster managerList hm c with
    | some (mg, k) => some (c, mg, k)
    | none => placeLoop row mdef meetings sched roster managerList hm rest

/-- Placement of one non-huddle meeting for one associate
(npt_scheduler.py lines 489-612): first-fit over the ascending candidate
list; `some (cand, mg, k)` is the committed start time, paired manager
and validated heatmap key, `none` means an unscheduled entry is
recorded. -/
def placeOneToOne (row : AssocRow) (mdef : MeetingDef) (meetings : List MeetingDef)
    (sched : List (String × ℤ)) (roster : List (String × MgrRow))
    (managerList : List String) (hm : Heatmap) (cands : List ℤ) :
    Option (ℤ × Option String × HKey) :=
  placeLoop row mdef meetings sched roster managerList hm cands

/-! ## Concrete fixtures used by witnesses and counterexamples -/

/-- A roster row with no break/lunch windows. -/
def cNoBreaks : BreakRow := ⟨none, none, none, none, none, none⟩

/-- A manager row: no date restriction, working, shift 08:00-18:00. -/
def cMgrRow : MgrRow := ⟨none, 1, 480, 1080, cNoBreaks⟩

/-- A one-row manager roster for manager "M1". -/
def cRoster : List (String × MgrRow) := [("M1", cMgrRow)]

/-- A heatmap cell with ample capacity: Scheduled 10, Requirement 0. -/
def cCellBig : Cell := ⟨10, 0, 0, 10⟩

/-- The spec's example scenario 4 cell: Scheduled 5, Requirement 4,
no load yet, Revised_Staffing 1. -/
def cCellS4 : Cell := ⟨5, 4, 0, 1⟩

/-- A 15-minute Team_Huddle definition (group meeting, no direct-manager
requirement). -/
def cHuddleDef : MeetingDef := ⟨"Team_Huddle", "group meeting", "no", 15, 0⟩

/-- A 30-minute One-2-One requiring the direct manager. -/
def cOneDef : MeetingDef := ⟨"One-2-One", "one-2-one", "yes", 30, 0⟩

/-- A 30-minute individual meeting not requiring a specific manager. -/
def cNoDef : MeetingDef := ⟨"Weekly_1on1", "one-2-one", "no", 30, 0⟩

/-- A group meeting whose Manager_Availability is "yes". -/
def cGroupDef : MeetingDef := ⟨"Group_Review", "group meeting", "yes", 30, 0⟩

/-- The Constraint definitions for the fixtures. -/
def cMeetings : List MeetingDef := [cHuddleDef, cOneDef]

/-- An associate on date 0, skill 0, shift 09:00-17:00, no breaks, direct
manager "M1". -/
def cRowA : AssocRow := ⟨"A", 0, 0, 540, 1020, cNoBreaks, some "M1"⟩

/-- Heatmap with a row only for the 09:30-10:00 interval. -/
def cHm1 : Heatmap := [((0, IntervalKey.range 570 600, 0), cCellBig)]

/-- Heatmap with a row only for the 10:00-10:30 interval. -/
def cHm6 : Heatmap := [((0, IntervalKey.range 600 630, 0), cCellBig)]

/-- Heatmap with a row only for the 09:00-09:30 interval. -/
def cHm7 : Heatmap := [((0, IntervalKey.range 540 570, 0), cCellBig)]

/-- A committed Team_Huddle at 09:00 for the associate. -/
def cSched1 : List (String × ℤ) := [("Team_Huddle", 540)]

/-- Break row with break1 = 09:00-09:15 (overlapping the shift start). -/
def cBreakC3 : BreakRow := ⟨none, none, some 540, some 555, none, none⟩

/-- Break row in which every window has a missing endpoint: lunch1 start
present but end NaN, break1 end present but start NaN, break2 absent. -/
def cHalfRow : BreakRow := ⟨some 720, none, none, some 930, none, none⟩

/-- Heatmap key list holding only the 10:00-10:30 interval. -/
def cKeys6 : List HKey := [(0, IntervalKey.range 600 630, 0)]

/-- Heatmap key list holding the exact 09:00-09:30 interval. -/
def cKeysW : List HKey := [(0, IntervalKey.range 540 570, 0)]

/-! ## Helper lemmas -/

lemma intervalsLoop_eq : ∀ (n : ℕ) (cur endT : ℤ), endT = cur + 30 * n →
    intervalsLoop n cur endT = (List.range n).map fun k : ℕ => cur + 30 * (k : ℤ)
  | 0, cur, endT, _ => by simp [intervalsLoop]
  | n + 1, cur, endT, h => by
    rw [intervalsLoop, if_pos (by push_cast at h; omega)]
    rw [intervalsLoop_eq n (cur + 30) endT (by push_cast at h ⊢; linarith)]
    rw [List.range_succ_eq_map, List.map_cons, List.map_map]
    refine congrArg₂ _ (by push_cast; ring) ?_
    refine List.map_congr_left fun k _ => ?_
    simp only [Function.comp_apply]
    push_cast
    ring

lemma candLoop_le : ∀ (f : ℕ) (t e : ℤ) (ex : List (ℤ × ℤ)) (x : ℤ),
    x ∈ candLoop f t e ex → t ≤ x
  | 0, t, e, ex, x, hx => by simp [candLoop] at hx
  | f + 1, t, e, ex, x, hx => by
    rw [candLoop] at hx
    split at hx
    · split at hx
      · have := candLoop_le f (t + 30) e ex x hx; omega
      · rcases List.mem_cons.mp hx with h | h
        · omega
        · have := candLoop_le f (t + 30) e ex x h; omega
    · simp at hx

lemma candLoop_sorted : ∀ (f : ℕ) (t e : ℤ) (ex : List (ℤ × ℤ)),
    (candLoop f t e ex).Sorted (· < ·)
  | 0, _, _, _ => by simp [candLoop]
  | f + 1, t, e, ex => by
    rw [candLoop]
    split
    · split
      · exact candLoop_sorted f (t + 30) e ex
      · refine List.sorted_cons.mpr ⟨fun x hx => ?_, candLoop_sorted f (t + 30) e ex⟩
        have := candLoop_le f (t + 30) e ex x hx; omega
    · simp

lemma rawPairOf_none {s e : Option ℤ} (h : s = none ∨ e = none) :
    rawPairOf s e = none := by
  rcases h with h | h
  · subst h; cases e <;> rfl
  · subst h; cases s <;> rfl

lemma lookupHeatmapKey_mem {keys : List HKey} {d cand skill : ℤ} {k : HKey}
    (h : lookupHeatmapKey keys d cand skill = some k) : k ∈ keys := by
  rw [lookupHeatmapKey] at h
  split at h
  · cases h; assumption
  · split at h
    · cases h; assumption
    · exact List.mem_of_find?_eq_some h

lemma heatPhase_key {row : AssocRow} {mdef : MeetingDef} {hm : Heatmap}
    {cand : ℤ} {k : HKey} (h : heatPhase row mdef hm cand = some k) :
    lookupHeatmapKey (hm.map Prod.fst) row.date cand row.skill = some k := by
  rw [heatPhase] at h
  split at h
  next => simp at h
  next k1 heq =>
    split at h
    next => simp at h
    next c _ =>
      split at h
      next => simp at h
      next =>
        split at h
        next => simp at h
        next => cases h; exact heq

lemma tryCandidate_inv {row : AssocRow} {mdef : MeetingDef}
    {meetings : List MeetingDef} {sched : List (String × ℤ)}
    {roster : List (String × MgrRow)} {managerList : List String}
    {hm : Heatmap} {cand : ℤ} {mg : Option String} {k : HKey}
    (h : tryCandidate row mdef meetings sched roster managerList hm cand =
      some (mg, k)) :
    cand + mdef.duration ≤ row.shiftEnd ∧
    (rawPairs row.breaks).any (spanClash cand mdef.duration) = false ∧
    schedClash meetings sched cand mdef.duration = false ∧
    heatPhase row mdef hm cand = some k ∧
    ∀ m, mg = some m →
      resolveManager mdef row.manager managerList
        (fun m2 => isManagerAvailable roster m2 cand mdef.duration row.date) =
      MgrResult.pair m := by
  rw [tryCandidate] at h
  split at h
  case isFalse => simp at h
  case isTrue hfit =>
    split at h
    case isTrue => simp at h
    case isFalse hbr =>
      split at h
      case isTrue => simp at h
      case isFalse hsc =>
        refine ⟨hfit, by simpa using hbr, by simpa using hsc, ?_⟩
        split at h
        next => simp at h
        next m hres =>
          rcases Option.map_eq_some'.mp h with ⟨k1, hk1, hpair⟩
          cases hpair
          exact ⟨hk1, fun m2 hm2 => by cases hm2; exact hres⟩
        next hres =>
          rcases Option.map_eq_some'.mp h with ⟨k1, hk1, hpair⟩
          cases hpair
          exact ⟨hk1, fun m2 hm2 => by cases hm2⟩

lemma placeLoop_inv {row : AssocRow} {mdef : MeetingDef}
    {meetings : List MeetingDef} {sched : List (String × ℤ)}
    {roster : List (String × MgrRow)} {managerList : List String}
    {hm : Heatmap} :
    ∀ {cands : List ℤ} {c : ℤ} {mg : Option String} {k : HKey},
      placeLoop row mdef meetings sched roster managerList hm cands =
        some (c, mg, k) →
      tryCandidate row mdef meetings sched roster managerList hm c =
        some (mg, k) ∧ c ∈ cands := by
  intro cands
  induction cands with
  | nil => intro c mg k h; simp [placeLoop] at h
  | cons x rest ih =>
    intro c mg k h
    rw [placeLoop] at h
    split at h
    next mg1 k1 htc =>
      cases h
      exact ⟨htc, List.mem_cons_self x rest⟩
    next htc =>
      rcases ih h with ⟨h1, h2⟩
      exact ⟨h1, List.mem_cons_of_mem x h2⟩

/-! ## Claim theorems -/

/-- C1: when the one-to-one scheduling loop commits a meeting for an
associate, its span `[cand, cand + duration)` is disjoint from the span
of every assignment previously committed for that associate on that
date (the conflict check of npt_scheduler.py lines 509-521 guards every
commit). -/
theorem no_double_booking_commit (row : AssocRow) (mdef : MeetingDef)
    (meetings : List MeetingDef) (sched : List (String × ℤ))
    (roster : List (String × MgrRow)) (managerList : List String)
    (hm : Heatmap) (cands : List ℤ) (cand : ℤ) (mg : Option String) (k : HKey)
    (h : placeOneToOne row mdef meetings sched roster managerList hm cands =
      some (cand, mg, k)) :
    ∀ mn s, (mn, s) ∈ sched →
      cand + mdef.duration ≤ s ∨ s + durOf meetings mn ≤ cand := by
  obtain ⟨htc, -⟩ := placeLoop_inv h
  have hcl := (tryCandidate_inv htc).2.2.1
  intro mn s hmem
  simp only [schedClash, List.any_eq_false] at hcl
  have h2 := hcl (mn, s) hmem
  simp at h2
  rcases le_or_lt (cand + mdef.duration) s with hle | hlt
  · exact Or.inl hle
  · exact Or.inr (h2 hlt)

/-- C1 witness: a One-2-One committed at 09:30 for an associate whose
Team_Huddle is already committed at 09:00 is disjoint from it. -/
theorem no_double_booking_commit_w :
    570 + cOneDef.duration ≤ 540 ∨ 540 + durOf cMeetings "Team_Huddle" ≤ 570 :=
  no_double_booking_commit cRowA cOneDef cMeetings cSched1 cRoster ["M1"] cHm1
    [570] 570 (some "M1") (0, IntervalKey.range 570 600, 0)
    (by norm_num [placeOneToOne, placeLoop, tryCandidate, heatPhase,
      lookupHeatmapKey, getCell, resolveManager, isManagerAvailable, mgrRowOk,
      rawPairs, rawPairOf, spanClash, schedClash, durOf, applyDelta, cRowA,
      cOneDef, cMeetings, cSched1, cRoster, cHm1, cMgrRow, cNoBreaks, cCellBig,
      cHuddleDef, List.find?, List.filter, List.any])
    "Team_Huddle" 540 (by decide)

/-- C2: `tryReserve` applies the delta `minutes/30` to the cell,
recomputes `revisedStaffing = (scheduledBaseline - nptLoad) -
requirement`, accepts exactly when the recomputed value is ≥ the
threshold, and on rejection has reverted the delta, leaving the cell
numerically unchanged (exact arithmetic; the cell's stored revised value
is the one the script maintains, `(Scheduled - NPT_Count) -
Requirement`). -/
theorem tryReserve_correct (c : Cell) (minutes : ℤ) (th : ℚ) :
    ((tryReserveCell c minutes th).1 = true ↔
      th ≤ (applyDelta c ((minutes : ℚ) / 30)).revised) ∧
    (applyDelta c ((minutes : ℚ) / 30)).nptCount =
      c.nptCount + (minutes : ℚ) / 30 ∧
    (applyDelta c ((minutes : ℚ) / 30)).revised =
      (c.scheduled - (c.nptCount + (minutes : ℚ) / 30)) - c.requirement ∧
    ((tryReserveCell c minutes th).1 = true →
      (tryReserveCell c minutes th).2 = applyDelta c ((minutes : ℚ) / 30)) ∧
    ((tryReserveCell c minutes th).1 = false →
      (tryReserveCell c minutes th).2.nptCount = c.nptCount ∧
      (c.revised = (c.scheduled - c.nptCount) - c.requirement →
        (tryReserveCell c minutes th).2 = c)) := by
  obtain ⟨sch, req, npt, rev⟩ := c
  rw [tryReserveCell]
  split
  next hlt =>
    refine ⟨by simpa [applyDelta] using not_le.mpr hlt, by simp [applyDelta],
      by simp [applyDelta], by simp, fun _ => ⟨by simp [applyDelta, removeDelta], ?_⟩⟩
    intro hcons
    simp only at hcons
    simp only [applyDelta, removeDelta, Cell.mk.injEq]
    refine ⟨trivial, trivial, by ring, ?_⟩
    rw [hcons]; ring
  next hge =>
    exact ⟨by simpa [applyDelta] using not_lt.mp hge, by simp [applyDelta],
      by simp [applyDelta], fun _ => rfl, by simp⟩

/-- C2 witness: the spec's scenario 4 — Scheduled 5, Requirement 4,
threshold 2, one 30-minute meeting: revised would be 0 < 2, so the
reservation is rejected and the cell is unchanged. -/
theorem tryReserve_correct_w :
    (tryReserveCell cCellS4 30 2).1 = false ∧
    (tryReserveCell cCellS4 30 2).2 = cCellS4 :=
  ⟨by norm_num [tryReserveCell, applyDelta, cCellS4],
    ((tryReserve_correct cCellS4 30 2).2.2.2.2
      (by norm_num [tryReserveCell, applyDelta, cCellS4])).2
      (by norm_num [cCellS4])⟩

/-- C8: reserving then releasing identical (key, minutes) — applying the
delta `minutes/30` and then removing it — leaves the cell's NPT load
unchanged and its revised staffing equal to the maintained value; a cell
whose stored revised value is the maintained one is restored exactly
(over exact rational arithmetic in place of the float accumulation). -/
theorem reserve_release_identity (c : Cell) (minutes : ℤ) :
    (removeDelta (applyDelta c ((minutes : ℚ) / 30)) ((minutes : ℚ) / 30)).nptCount =
      c.nptCount ∧
    (removeDelta (applyDelta c ((minutes : ℚ) / 30)) ((minutes : ℚ) / 30)).revised =
      (c.scheduled - c.nptCount) - c.requirement ∧
    (c.revised = (c.scheduled - c.nptCount) - c.requirement →
      removeDelta (applyDelta c ((minutes : ℚ) / 30)) ((minutes : ℚ) / 30) = c) := by
  obtain ⟨sch, req, npt, rev⟩ := c
  refine ⟨by simp [applyDelta, removeDelta], by simp [applyDelta, removeDelta], ?_⟩
  intro hcons
  simp only at hcons
  simp only [applyDelta, removeDelta, Cell.mk.injEq]
  refine ⟨trivial, trivial, by ring, ?_⟩
  rw [hcons]; ring

/-- C8 witness: reserve then release of 15 minutes on the scenario-4
cell restores it exactly. -/
theorem reserve_release_identity_w :
    removeDelta (applyDelta cCellS4 (((15 : ℤ) : ℚ) / 30)) (((15 : ℤ) : ℚ) / 30) =
      cCellS4 :=
  (reserve_release_identity cCellS4 15).2.2 (by norm_num [cCellS4])

/-- C9: a break or lunch window with a missing endpoint is ignored by
every conflict and availability check — it contributes no pair to the
checked break list or to the candidate-builder exclude periods, so the
conflict test reports no conflict for any meeting span and the candidate
grid is the unrestricted one. -/
theorem half_specified_breaks_ignored (r : BreakRow)
    (h1 : r.lunch1Start = none ∨ r.lunch1End = none)
    (h2 : r.break1Start = none ∨ r.break1End = none)
    (h3 : r.break2Start = none ∨ r.break2End = none) :
    rawPairs r = [] ∧ excludePeriods r = [] ∧
    (∀ mt dur, isTimeConflicting r mt dur = false) ∧
    ∀ ss se, buildCandidates ss se (excludePeriods r) = buildCandidates ss se [] := by
  have hp : rawPairs r = [] := by
    simp [rawPairs, rawPairOf_none h1, rawPairOf_none h2, rawPairOf_none h3]
  have he : excludePeriods r = [] := by simp [excludePeriods, hp]
  exact ⟨hp, he, fun mt dur => by simp [isTimeConflicting, hp],
    fun ss se => by rw [he]⟩

/-- C9 witness: a roster row whose lunch starts at 12:00 with a NaN end
(and half-specified breaks) reports no conflict for a 12:05-12:35
meeting — the person is treated as free inside that window. -/
theorem half_specified_breaks_ignored_w :
    isTimeConflicting cHalfRow 725 30 = false :=
  (half_specified_breaks_ignored cHalfRow (Or.inr rfl) (Or.inl rfl)
    (Or.inl rfl)).2.2.1 725 30

/-- C3 (code defect): the Team_Huddle commit paths do not check break
overlap for the meeting's span. meeting_scheduler_final.py
`schedule_team_huddles` commits the huddle at the shift start with no
break check at all — with break1 = 09:00-09:15 the associate is
committed at 09:00 even though the script's own `is_time_conflicting`
reports the clash; and npt_scheduler.py's candidate filter checks only
the first 30-minute quantum, so 09:00 passes for a break at 09:30-10:00
although a 60-minute meeting starting there overlaps it. -/
theorem huddle_break_overlap_defect :
    scheduleHuddleGroup 540 15 [0] 1 = [(0, 540, 15)] ∧
    isTimeConflicting cBreakC3 540 15 = true ∧
    insideExclude 540 (570, 600) = false ∧
    spanClash 540 60 (570, 600) = true := by decide

/-- C4 counterexample: for a group meeting whose Manager_Availability is
"yes" (a direct manager is required), an associate with no recorded
direct manager is paired with an arbitrary available manager "M1" — a
substitute manager is attached, contradicting the claim that such
meetings pair only the explicitly assigned manager or none. -/
theorem direct_manager_fallback_cx :
    cGroupDef.managerAvail = "yes" ∧
    resolveManager cGroupDef none ["M1"] (fun _ => true) = MgrResult.pair "M1" :=
  ⟨rfl, rfl⟩

/-- C4 amended: for every non-group meeting requiring a direct manager,
a committed assignment with a paired manager pairs exactly the
associate's recorded direct manager, and only when that manager is
available at the committed time (the npt_scheduler.py group-meeting
branch is the exception the counterexample exhibits). -/
theorem direct_manager_exclusivity (row : AssocRow) (mdef : MeetingDef)
    (meetings : List MeetingDef) (sched : List (String × ℤ))
    (roster : List (String × MgrRow)) (managerList : List String)
    (hm : Heatmap) (cands : List ℤ) (cand : ℤ) (m : String) (k : HKey)
    (hty : mdef.meetingType ≠ "group meeting") (hav : mdef.managerAvail = "yes")
    (h : placeOneToOne row mdef meetings sched roster managerList hm cands =
      some (cand, some m, k)) :
    row.manager = some m ∧
    isManagerAvailable roster m cand mdef.duration row.date = true := by
  obtain ⟨htc, -⟩ := placeLoop_inv h
  have hres := (tryCandidate_inv htc).2.2.2.2 m rfl
  rw [resolveManager.eq_def, if_neg hty, if_pos hav] at hres
  cases hmgr : row.manager with
  | none => rw [hmgr] at hres; simp at hres
  | some d =>
    rw [hmgr] at hres
    cases hav2 : isManagerAvailable roster d cand mdef.duration row.date with
    | true =>
      simp [hav2] at hres
      subst hres
      exact ⟨rfl, hav2⟩
    | false => simp [hav2] at hres

/-- C4 witness: a One-2-One requiring the direct manager commits at
09:30 paired with the associate's own manager "M1", who is available
then. -/
theorem direct_manager_exclusivity_w :
    cRowA.manager = some "M1" ∧
    isManagerAvailable cRoster "M1" 570 cOneDef.duration cRowA.date = true :=
  direct_manager_exclusivity cRowA cOneDef cMeetings [] cRoster ["M1"] cHm1 [570]
    570 "M1" (0, IntervalKey.range 570 600, 0) (by decide) rfl
    (by norm_num [placeOneToOne, placeLoop, tryCandidate, heatPhase,
      lookupHeatmapKey, getCell, resolveManager, isManagerAvailable, mgrRowOk,
      rawPairs, rawPairOf, spanClash, schedClash, durOf, applyDelta, cRowA,
      cOneDef, cMeetings, cRoster, cHm1, cMgrRow, cNoBreaks, cCellBig,
      cHuddleDef, List.find?, List.filter, List.any])

/-- C5 counterexample: meeting_scheduler_final.py computes the first-slot
count as `int(n * r)` (truncation, no clamp): for a group of 7 with
sampled ratio 0.51 it places 3 people in the first slot, a value that
`round(7 × r)` clamped to `[floor(3.5), ceil(4.2)]` cannot produce for
any ratio `r ∈ [0.5, 0.6]` (that expression is always 4). -/
theorem huddle_split_mechanism_cx :
    firstSlotCountFinal 7 (51 / 100) = 3 ∧
    ∀ r : ℚ, 1 / 2 ≤ r → r ≤ 3 / 5 → firstCountSpec 7 r ≠ 3 := by
  have hmin : minAllow 7 = 3 := by
    rw [minAllow, show ((7 : ℕ) : ℚ) * (1 / 2) = 7 / 2 by norm_num,
      Int.floor_eq_iff]
    norm_num
  have hmax : maxAllow 7 = 5 := by
    rw [maxAllow, show ((7 : ℕ) : ℚ) * (3 / 5) = 21 / 5 by norm_num,
      Int.ceil_eq_iff]
    norm_num
  constructor
  · rw [firstSlotCountFinal, show ((7 : ℕ) : ℚ) * (51 / 100) = 357 / 100 by norm_num,
      Int.floor_eq_iff]
    norm_num
  · intro r h1 h2
    have hround : round (((7 : ℕ) : ℚ) * r) = 4 := by
      rw [show ((7 : ℕ) : ℚ) = 7 by norm_num, round_eq]
      have hlb : (4 : ℤ) ≤ ⌊(7 : ℚ) * r + 1 / 2⌋ := by
        rw [Int.le_floor]; push_cast; linarith
      have hub : ⌊(7 : ℚ) * r + 1 / 2⌋ < 5 := by
        rw [Int.floor_lt]; push_cast; linarith
      omega
    rw [firstCountSpec, hmin, hmax, hround]
    norm_num

/-- C5 amended: the first-slot count is `round(n·0.55)` clamped to
`[floor(0.5n), ceil(0.6n)]` in npt_scheduler.py but `int(n·r)`
(truncation, unclamped) in meeting_scheduler_final.py; in both variants,
for any ratio `r ∈ [0.5, 0.6]`, the count lies in
`[floor(0.5n), ceil(0.6n)]`, and the remaining people all go to the
second slot. -/
theorem huddle_split_bounds (n : ℕ) (r : ℚ) (h1 : 1 / 2 ≤ r) (h2 : r ≤ 3 / 5) :
    minAllow n ≤ firstSlotCountFinal n r ∧ firstSlotCountFinal n r ≤ maxAllow n ∧
    minAllow n ≤ firstCountNpt n ∧ firstCountNpt n ≤ maxAllow n ∧
    ∀ (ss dur : ℤ) (shuffled : List ℕ) (fc : ℕ),
      (scheduleHuddleGroup ss dur shuffled fc).length = shuffled.length := by
  have hn : (0 : ℚ) ≤ (n : ℚ) := Nat.cast_nonneg n
  have hfm : minAllow n ≤ maxAllow n := by
    have hq : (n : ℚ) * (1 / 2) ≤ (n : ℚ) * (3 / 5) := by nlinarith
    have hc : ((minAllow n : ℤ) : ℚ) ≤ ((maxAllow n : ℤ) : ℚ) :=
      le_trans (Int.floor_le _) (le_trans hq (Int.le_ceil _))
    exact_mod_cast hc
  refine ⟨?_, ?_, le_max_left _ _, max_le hfm (min_le_left _ _), ?_⟩
  · exact Int.floor_le_floor (by nlinarith)
  · exact le_trans (Int.floor_le_ceil _) (Int.ceil_le_ceil (by nlinarith))
  · intro ss dur shuffled fc
    simp [scheduleHuddleGroup]
    omega

/-- C5 witness: a shift-group of 10 with ratio 0.55 — both variants'
counts lie between 5 and 6, and split groups cover everyone. -/
theorem huddle_split_bounds_w :
    minAllow 10 ≤ firstSlotCountFinal 10 (11 / 20) ∧
    firstSlotCountFinal 10 (11 / 20) ≤ maxAllow 10 ∧
    minAllow 10 ≤ firstCountNpt 10 ∧ firstCountNpt 10 ≤ maxAllow 10 ∧
    ∀ (ss dur : ℤ) (shuffled : List ℕ) (fc : ℕ),
      (scheduleHuddleGroup ss dur shuffled fc).length = shuffled.length :=
  huddle_split_bounds 10 (11 / 20) (by norm_num) (by norm_num)

/-- C6 counterexample: with a heatmap holding only the 10:00-10:30 row,
a candidate at 09:00 finds neither the exact key nor the start-only key;
the claim says the slot must then be skipped, but the code's third
fallback returns the 10:00-10:30 row (the spec-order lookup returns
none) and the engine commits the 09:00 meeting validated against that
other interval's row. -/
theorem heatmap_fallback_cx :
    ((0, IntervalKey.range 540 570, 0) : HKey) ∉ cKeys6 ∧
    ((0, IntervalKey.startOnly 540, 0) : HKey) ∉ cKeys6 ∧
    lookupHeatmapKey cKeys6 0 540 0 = some (0, IntervalKey.range 600 630, 0) ∧
    lookupSpecOrder cKeys6 0 540 0 = none ∧
    placeOneToOne cRowA cNoDef cMeetings [] cRoster ["M1"] cHm6 [540] =
      some (540, some "M1", (0, IntervalKey.range 600 630, 0)) := by
  refine ⟨by decide, by decide, by decide, by decide, ?_⟩
  norm_num +decide [placeOneToOne, placeLoop, tryCandidate, heatPhase, lookupHeatmapKey,
    getCell, resolveManager, isManagerAvailable, mgrRowOk, rawPairs, rawPairOf,
    spanClash, schedClash, durOf, applyDelta, cRowA, cNoDef, cMeetings, cRoster,
    cHm6, cMgrRow, cNoBreaks, cCellBig, cHuddleDef, cOneDef, List.find?,
    List.filter, List.any]

/-- C6 amended: the heatmap lookup falls back through exactly the order
exact interval key, start-time-only key, then any row with the same date
and skill; only if all three fail is the candidate treated as
cannot-schedule, and every key a commit is validated against is a key of
the heatmap. -/
theorem heatmap_lookup_fallback (keys : List HKey) (d cand skill : ℤ) :
    ((d, IntervalKey.range cand (cand + 30), skill) ∈ keys →
      lookupHeatmapKey keys d cand skill =
        some (d, IntervalKey.range cand (cand + 30), skill)) ∧
    ((d, IntervalKey.range cand (cand + 30), skill) ∉ keys →
      (d, IntervalKey.startOnly cand, skill) ∈ keys →
      lookupHeatmapKey keys d cand skill =
        some (d, IntervalKey.startOnly cand, skill)) ∧
    ((d, IntervalKey.range cand (cand + 30), skill) ∉ keys →
      (d, IntervalKey.startOnly cand, skill) ∉ keys →
      lookupHeatmapKey keys d cand skill =
        keys.find? fun k => decide (k.1 = d) && decide (k.2.2 = skill)) ∧
    (∀ k, lookupHeatmapKey keys d cand skill = some k → k ∈ keys) ∧
    ∀ (row : AssocRow) (mdef : MeetingDef) (meetings : List MeetingDef)
      (sched : List (String × ℤ)) (roster : List (String × MgrRow))
      (managerList : List String) (hm : Heatmap) (cands : List ℤ)
      (c : ℤ) (mg : Option String) (k : HKey),
      placeOneToOne row mdef meetings sched roster managerList hm cands =
        some (c, mg, k) → k ∈ hm.map Prod.fst := by
  refine ⟨?_, ?_, ?_, fun k hk => lookupHeatmapKey_mem hk, ?_⟩
  · intro hmem; rw [lookupHeatmapKey, if_pos hmem]
  · intro hx hs; rw [lookupHeatmapKey, if_neg hx, if_pos hs]
  · intro hx hs; rw [lookupHeatmapKey, if_neg hx, if_neg hs]
  · intro row mdef meetings sched roster managerList hm cands c mg k h
    obtain ⟨htc, -⟩ := placeLoop_inv h
    exact lookupHeatmapKey_mem (heatPhase_key (tryCandidate_inv htc).2.2.2.1)

/-- C6 witness: when the exact interval key is present, the lookup
returns it. -/
theorem heatmap_lookup_fallback_w :
    lookupHeatmapKey cKeysW 0 540 0 = some (0, IntervalKey.range 540 570, 0) :=
  (heatmap_lookup_fallback cKeysW 0 540 0).1 (by decide)

/-- C7 counterexample: npt_scheduler.py's one-to-one loop iterates the
candidate list from the very start of the shift — for an associate whose
huddle was never committed, a One-2-One-style meeting is committed at
09:00, the shift start itself, i.e. strictly before shiftStart + 60. -/
theorem first_hour_not_skipped_cx :
    placeOneToOne cRowA cNoDef cMeetings [] cRoster ["M1"] cHm7
        (buildCandidates 540 1020 []) =
      some (540, some "M1", (0, IntervalKey.range 540 570, 0)) ∧
    (540 : ℤ) < cRowA.shiftStart + 60 := by
  have hc : buildCandidates 540 1020 [] =
      [540, 570, 600, 630, 660, 690, 720, 750, 780, 810, 840, 870, 900, 930,
       960, 990] := by decide
  constructor
  · rw [placeOneToOne, hc]
    have ht : tryCandidate cRowA cNoDef cMeetings [] cRoster ["M1"] cHm7 540 =
        some (some "M1", (0, IntervalKey.range 540 570, 0)) := by
      norm_num [tryCandidate, heatPhase, lookupHeatmapKey, getCell,
        resolveManager, isManagerAvailable, mgrRowOk, rawPairs, rawPairOf,
        spanClash, schedClash, durOf, applyDelta, cRowA, cNoDef, cMeetings,
        cRoster, cHm7, cMgrRow, cNoBreaks, cCellBig, cHuddleDef, cOneDef,
        List.find?, List.filter, List.any]
    rw [placeLoop, ht]
  · decide

/-- C7 amended: the slot search iterates candidates in ascending start
order in both variants; meeting_scheduler_final.py additionally skips
the first two 30-minute slots, so each considered start is at least
shiftStart + 60 — npt_scheduler.py applies no such first-hour skip. -/
theorem slot_search_order (start ss se : ℤ) (ex : List (ℤ × ℤ)) :
    (∀ t ∈ availableIntervalsFinal start, start + 60 ≤ t) ∧
    (availableIntervalsFinal start).Sorted (· < ·) ∧
    (buildCandidates ss se ex).Sorted (· < ·) := by
  have hf := intervalsLoop_eq 16 start (start + 8 * 60) (by norm_num)
  have hdrop : (List.range 16).drop 2 = (List.range 14).map (fun k => k + 2) := by
    decide
  refine ⟨?_, ?_, candLoop_sorted _ _ _ _⟩
  · intro t ht
    rw [availableIntervalsFinal, get30minIntervals, hf, ← List.map_drop,
      hdrop, List.map_map] at ht
    obtain ⟨k, -, rfl⟩ := List.mem_map.mp ht
    simp only [Function.comp_apply]
    push_cast
    omega
  · rw [availableIntervalsFinal, get30minIntervals, hf]
    refine List.Pairwise.sublist (List.drop_sublist 2 _) ?_
    refine List.Pairwise.map _ (fun a b hab => ?_) (List.pairwise_lt_range 16)
    omega

/-- C7 witness: 10:00 is an offered slot for a 09:00 shift in the final
variant, and it is at least one hour after the shift start. -/
theorem slot_search_order_w : (540 : ℤ) + 60 ≤ 600 :=
  (slot_search_order 540 0 0 []).1 600 (by decide)

/-- C10 counterexample: for a shift 09:00-16:40 (shorter than 8 hours),
no start time offered to the individual-meeting search — neither in the
full 16-slot grid nor in the `[2:]` tail it iterates — lies after the
16:40 shift end, contradicting the claim that for every shift shorter
than 8 hours such starts are still offered. -/
theorem fixed_grid_short_shift_cx :
    (1000 : ℤ) - 540 < 8 * 60 ∧
    (∀ t ∈ get30minIntervals 540, t ≤ 1000) ∧
    ∀ t ∈ availableIntervalsFinal 540, t ≤ 1000 := by decide

/-- C10 amended: the grid is exactly 16 thirty-minute intervals spanning
a fixed 8 hours from the shift start, with no dependence on the shift
end; for every shift shorter than 7.5 hours (ending before
shiftStart + 450), start times after the shift end are still offered to
the search. -/
theorem fixed_grid_16 (start : ℤ) :
    get30minIntervals start =
      (List.range 16).map (fun k : ℕ => start + 30 * (k : ℤ)) ∧
    (get30minIntervals start).length = 16 ∧
    ∀ shiftEnd : ℤ, shiftEnd < start + 450 →
      ∃ t ∈ availableIntervalsFinal start, shiftEnd < t := by
  have hf := intervalsLoop_eq 16 start (start + 8 * 60) (by norm_num)
  rw [get30minIntervals]
  refine ⟨hf, by rw [hf]; simp, ?_⟩
  intro se hse
  refine ⟨start + 450, ?_, by omega⟩
  rw [availableIntervalsFinal, get30minIntervals, hf, ← List.map_drop]
  refine List.mem_map.mpr ⟨15, ?_, by push_cast; ring⟩
  decide

/-- C10 witness: for a shift starting at 00:00 and ending after 6 hours
40 minutes, some offered start lies after the shift end. -/
theorem fixed_grid_16_w : ∃ t ∈ availableIntervalsFinal 0, (400 : ℤ) < t :=
  (fixed_grid_16 0).2.2 400 (by norm_num)

end Sched
